import Mathlib

/-!
# Ledger & Inventory Consistency Engine — verification development

Shallow embedding of the financial core of the `commercial-erp` codebase:
the 2-decimal rounding helper (`utils/calculations.js`), the document-totals
and payment-allocation service (`services/calculService.js`), the stock
mutation paths (`services/stockService.js` and `Produit.mettreAJourStock`),
the ledger-entry balance check (the `EcritureComptable` pre-save hook
together with `ComptabiliteService`), and the payment post-save recompute
(`models/Paiement.js`).

JavaScript numbers are embedded as exact rationals; `Math.round` is
embedded with its JavaScript semantics, floor of `x + 1/2` (half toward
positive infinity). Fallible operations return `Except`, mirroring the fact
that every write path runs in a transaction that aborts wholesale on error:
an `Except.error` result persists nothing.
-/

namespace ERP

/-! ## Rounding (utils/calculations.js) -/

/-- JavaScript `Math.round`: round half toward positive infinity,
`Math.round x = ⌊x + 1/2⌋`. -/
def jsMathRound (x : ℚ) : ℤ := ⌊x + 1/2⌋

/-- Embeds `roundFinancial` from `utils/calculations.js`:
`Math.round(number * PRECISION) / PRECISION` with `PRECISION = 100`. -/
def roundFinancial (x : ℚ) : ℚ := (jsMathRound (x * 100) : ℚ) / 100

/-- The rounding mode the spec claims: round half away from zero,
`round2 x = sign x * roundHalfUp (abs x * 100) / 100`. Written from the
spec words, to be compared with `roundFinancial` from the source. -/
def roundHalfAwayFromZero (x : ℚ) : ℚ :=
  if 0 ≤ x then ((⌊x * 100 + 1/2⌋ : ℤ) : ℚ) / 100
  else -(((⌊(-x) * 100 + 1/2⌋ : ℤ) : ℚ) / 100)

/-- A rational that is an integer number of cents: the exact image of the
2-decimal rounding. -/
def IsCent (x : ℚ) : Prop := ∃ k : ℤ, x = (k : ℚ) / 100

theorem isCent_roundFinancial (x : ℚ) : IsCent (roundFinancial x) :=
  ⟨jsMathRound (x * 100), rfl⟩

theorem roundFinancial_eq_self {x : ℚ} (h : IsCent x) : roundFinancial x = x := by
  obtain ⟨k, rfl⟩ := h
  unfold roundFinancial jsMathRound
  have hk : (k : ℚ) / 100 * 100 = (k : ℚ) := by field_simp
  rw [hk]
  have hfl : ⌊(k : ℚ) + 1/2⌋ = k := by
    rw [add_comm, Int.floor_add_int]
    norm_num
  rw [hfl]

theorem isCent_zero : IsCent 0 := ⟨0, by norm_num⟩

theorem isCent_add {x y : ℚ} (hx : IsCent x) (hy : IsCent y) : IsCent (x + y) := by
  obtain ⟨k, rfl⟩ := hx
  obtain ⟨m, rfl⟩ := hy
  exact ⟨k + m, by push_cast; ring⟩

theorem isCent_sub {x y : ℚ} (hx : IsCent x) (hy : IsCent y) : IsCent (x - y) := by
  obtain ⟨k, rfl⟩ := hx
  obtain ⟨m, rfl⟩ := hy
  exact ⟨k - m, by push_cast; ring⟩

theorem isCent_min {x y : ℚ} (hx : IsCent x) (hy : IsCent y) : IsCent (min x y) := by
  rcases le_total x y with h | h
  · rw [min_eq_left h]; exact hx
  · rw [min_eq_right h]; exact hy

theorem isCent_sum {l : List ℚ} (h : ∀ x ∈ l, IsCent x) : IsCent l.sum := by
  induction l with
  | nil => simpa using isCent_zero
  | cons a t ih =>
    rw [List.sum_cons]
    exact isCent_add (h a (List.mem_cons_self a t))
      (ih fun x hx => h x (List.mem_cons_of_mem a hx))

theorem roundFinancial_nonneg {x : ℚ} (h : 0 ≤ x) : 0 ≤ roundFinancial x := by
  unfold roundFinancial jsMathRound
  have h1 : (0 : ℤ) ≤ ⌊x * 100 + 1/2⌋ := by
    have h2 : (0 : ℚ) ≤ x * 100 + 1/2 := by positivity
    exact Int.floor_nonneg.mpr (by linarith)
  positivity

/-! ## Per-line tax and discount helpers (utils/calculations.js) -/

/-- Discount type of a line, source enum `Pourcentage | Montant`
(`models` discount sub-schema). -/
inductive RemiseType
  | pourcentage
  | montant
deriving DecidableEq

/-- Embeds `calculateTaxAmount(amount, taxRate)` from `utils/calculations.js`
with the default base type HT, the only form `calculerTotauxDocument` uses. -/
def calculateTaxAmount (amount taxRate : ℚ) : ℚ :=
  roundFinancial (amount * (taxRate / 100))

/-- Embeds `calculateDiscountAmount(baseAmount, discountValue, discountType)`
from `utils/calculations.js`. -/
def calculateDiscountAmount (baseAmount discountValue : ℚ) (discountType : RemiseType) : ℚ :=
  roundFinancial
    (match discountType with
     | .pourcentage => baseAmount * (discountValue / 100)
     | .montant => discountValue)

/-! ## Document totals (CalculService.calculerTotauxDocument) -/

/-- Discount attached to a document line. -/
structure Remise where
  type : RemiseType
  valeur : ℚ
deriving DecidableEq

/-- A document line as `calculerTotauxDocument` reads it: quantity, unit
price before tax, optional discount, tax rate in percent. -/
structure Ligne where
  quantite : ℚ
  prixUnitaireHT : ℚ
  remise : Option Remise
  tauxTVA : ℚ
deriving DecidableEq

/-- Document totals returned by `calculerTotauxDocument`. -/
structure Totaux where
  totalHT : ℚ
  totalRemise : ℚ
  totalTVA : ℚ
  totalTTC : ℚ
deriving DecidableEq

/-- JavaScript `ligne.remise?.valeur || 0`. -/
def remiseValeur (l : Ligne) : ℚ :=
  match l.remise with
  | some r => r.valeur
  | none => 0

/-- JavaScript `ligne.remise?.type`, with the callee default `Pourcentage`
kicking in when the discount is absent. -/
def remiseType (l : Ligne) : RemiseType :=
  match l.remise with
  | some r => r.type
  | none => .pourcentage

/-- One step of the `reduce` accumulator in `calculerTotauxDocument`:
accumulates (totalHT, totalRemise, totalTVA). -/
def etapeTotaux (acc : ℚ × ℚ × ℚ) (ligne : Ligne) : ℚ × ℚ × ℚ :=
  let totalLigneHT := roundFinancial (ligne.quantite * ligne.prixUnitaireHT)
  let montantRemiseLigne := calculateDiscountAmount totalLigneHT (remiseValeur ligne) (remiseType ligne)
  let totalLigneApresRemiseHT := totalLigneHT - montantRemiseLigne
  let montantTVALigne := calculateTaxAmount totalLigneApresRemiseHT ligne.tauxTVA
  (acc.1 + totalLigneHT, acc.2.1 + montantRemiseLigne, acc.2.2 + montantTVALigne)

/-- Embeds `CalculService.calculerTotauxDocument` from
`services/calculService.js`: reduce over the lines, then a final rounding of
each aggregate, with `totalTTC = totalHT - totalRemise + totalTVA` computed
on the raw aggregates before rounding. -/
def calculerTotauxDocument (lignes : List Ligne) : Totaux :=
  let t := lignes.foldl etapeTotaux ((0 : ℚ), (0 : ℚ), (0 : ℚ))
  { totalHT := roundFinancial t.1
    totalRemise := roundFinancial t.2.1
    totalTVA := roundFinancial t.2.2
    totalTTC := roundFinancial (t.1 - t.2.1 + t.2.2) }

/-- Spec-side per-line amount before tax: `round2(quantity * unitPriceExTax)`. -/
def ligneHT (l : Ligne) : ℚ := roundFinancial (l.quantite * l.prixUnitaireHT)

/-- Spec-side per-line discount amount. -/
def ligneRemise (l : Ligne) : ℚ :=
  calculateDiscountAmount (ligneHT l) (remiseValeur l) (remiseType l)

/-- Spec-side per-line tax amount:
`round2((lineExTax - discountAmount) * taxRatePercent / 100)`. -/
def ligneTVA (l : Ligne) : ℚ := calculateTaxAmount (ligneHT l - ligneRemise l) l.tauxTVA

/-! ## Payment allocation (CalculService.repartirPaiementSurFactures) -/

/-- Embeds `CalculService.calculerSoldeRestant`. -/
def calculerSoldeRestant (totalTTC montantPaye : ℚ) : ℚ :=
  roundFinancial (totalTTC - montantPaye)

/-- An open document as the allocator reads it. -/
structure FactureOuverte where
  idF : ℕ
  numero : ℕ
  totalTTC : ℚ
  montantPaye : ℚ
deriving DecidableEq

/-- One allocation record pushed by the allocator. -/
structure Allocation where
  factureId : ℕ
  factureNumero : ℕ
  montantApplique : ℚ
deriving DecidableEq

/-- The `for ... of` loop body of `repartirPaiementSurFactures`: walks the
invoices in order carrying the remaining amount, breaking once the remaining
amount is not positive. -/
def repartirAux : ℚ → List FactureOuverte → List Allocation × ℚ
  | reste, [] => ([], reste)
  | reste, facture :: suite =>
    if reste ≤ 0 then ([], reste)
    else
      let soldeFacture := calculerSoldeRestant facture.totalTTC facture.montantPaye
      if 0 < soldeFacture then
        let montantAAppliquer := roundFinancial (min reste soldeFacture)
        let apres := repartirAux (roundFinancial (reste - montantAAppliquer)) suite
        (⟨facture.idF, facture.numero, montantAAppliquer⟩ :: apres.1, apres.2)
      else
        repartirAux reste suite

/-- Embeds `CalculService.repartirPaiementSurFactures`: round the payment,
run the loop, and report the leftover, clamped to 0 when not positive. -/
def repartirPaiementSurFactures (montantPaiement : ℚ) (factures : List FactureOuverte) :
    List Allocation × ℚ :=
  let r := repartirAux (roundFinancial montantPaiement) factures
  (r.1, if 0 < r.2 then r.2 else 0)

/-! ## Weighted-average cost (CalculService.calculerNouveauCump) -/

/-- Embeds `CalculService.calculerNouveauCump` from
`services/calculService.js`. -/
def calculerNouveauCump
    (stockInitialQuantite stockInitialCoutTotal entreeQuantite entreeCoutUnitaire : ℚ) : ℚ :=
  let nouveauStockQuantite := stockInitialQuantite + entreeQuantite
  if nouveauStockQuantite = 0 then 0
  else
    let entreeCoutTotal := entreeQuantite * entreeCoutUnitaire
    let nouveauCoutTotal := stockInitialCoutTotal + entreeCoutTotal
    roundFinancial (nouveauCoutTotal / nouveauStockQuantite)

/-! ## Stock state and mutation paths -/

/-- One entry of `produit.stockParDepot`. -/
structure DepotStock where
  depot : ℕ
  quantite : ℚ
deriving DecidableEq

/-- The valuation-relevant fields of a `Produit` document. -/
structure Produit where
  quantiteEnStock : ℚ
  stockParDepot : List DepotStock
  gestionStock : Bool
  prixAchat : ℚ
deriving DecidableEq

/-- Errors thrown by the stock mutation paths, including the
ValidationError Mongoose raises at `produit.save()` when a quantity
violates the schema `min: 0`. -/
inductive StockErreur
  | donneesManquantes
  | nonPresentDansDepot
  | stockInsuffisant
  | stockNegatif
  | quantiteNegativeInterdite
deriving DecidableEq

/-- JavaScript `produit.stockParDepot.find(d => d.depot === depotId)`. -/
def trouverDepot (p : Produit) (depotId : ℕ) : Option DepotStock :=
  p.stockParDepot.find? (fun d => d.depot == depotId)

/-- In-place mutation `depotStock.quantite += quantite` of the entry
`find` returned: adds to the first entry for this warehouse. -/
def majDepot : List DepotStock → ℕ → ℚ → List DepotStock
  | [], _, _ => []
  | ds :: suite, depotId, quantite =>
    if ds.depot = depotId then { ds with quantite := ds.quantite + quantite } :: suite
    else ds :: majDepot suite depotId quantite

/-- Quantity the product currently holds in a warehouse, 0 when there is no
per-warehouse record. -/
def quantiteDepot (p : Produit) (depotId : ℕ) : ℚ :=
  match trouverDepot p depotId with
  | some ds => ds.quantite
  | none => 0

/-- Audit record written by `StockService._creerMouvement`. -/
structure MouvementStock where
  depot : ℕ
  quantite : ℚ
  coutUnitaire : ℚ
  valeurMouvement : ℚ
deriving DecidableEq

/-- Mongoose `produit.save()`: `produitSchema` declares `min: 0` on both
`quantiteEnStock` and `stockParDepot.quantite`, and save-time validation
checks the whole document, so a save carrying any negative quantity throws
a ValidationError and writes nothing. -/
def saveProduit (produit : Produit) : Except StockErreur Produit :=
  if 0 ≤ produit.quantiteEnStock ∧ ∀ d ∈ produit.stockParDepot, 0 ≤ d.quantite then
    .ok produit
  else .error .quantiteNegativeInterdite

/-- Embeds `StockService._creerMouvement` from `services/stockService.js`
(with the product already loaded): the explicit guards, then
`produit.save()` with its schema validation, then the movement record. The
surrounding MongoDB transaction aborts on any thrown error, so an
`Except.error` result persists nothing: no product update and no movement
record. A product that is not stock-tracked yields `Except.ok none`, the
documented no-op. -/
def creerMouvement (produit : Produit) (depotId : ℕ) (quantite : ℚ) :
    Except StockErreur (Option (Produit × MouvementStock)) :=
  if quantite = 0 then .error .donneesManquantes
  else if produit.gestionStock = false then .ok none
  else
    match trouverDepot produit depotId with
    | some depotStock =>
      if produit.quantiteEnStock + quantite < 0 ∨ depotStock.quantite + quantite < 0 then
        .error .stockInsuffisant
      else
        match saveProduit { produit with
            quantiteEnStock := produit.quantiteEnStock + quantite,
            stockParDepot := majDepot produit.stockParDepot depotId quantite } with
        | .error e => .error e
        | .ok produitSauve =>
          .ok (some (produitSauve,
            ⟨depotId, quantite, produit.prixAchat, quantite * produit.prixAchat⟩))
    | none =>
      if 0 < quantite then
        if produit.quantiteEnStock + quantite < 0 then .error .stockInsuffisant
        else
          match saveProduit { produit with
              quantiteEnStock := produit.quantiteEnStock + quantite,
              stockParDepot := produit.stockParDepot ++ [⟨depotId, quantite⟩] } with
          | .error e => .error e
          | .ok produitSauve =>
            .ok (some (produitSauve,
              ⟨depotId, quantite, produit.prixAchat, quantite * produit.prixAchat⟩))
      else .error .nonPresentDansDepot

/-- Embeds `produitSchema.statics.mettreAJourStock` (the static the
`MouvementStock` pre-save hook calls). The source pushes a new
per-warehouse record for ANY sign of `quantite` when the warehouse has no
record yet, and its explicit negativity check
`produit.quantiteEnStock < 0 || (depotStock && depotStock.quantite < 0)`
tests only the entry `find` returned (undefined on the push path) — but the
subsequent `produit.save()` runs the schema validation (`min: 0`), which
rejects any document carrying a negative quantity, pushed records
included. -/
def mettreAJourStock (produit : Produit) (depotId : ℕ) (quantite : ℚ) :
    Except StockErreur Produit :=
  match trouverDepot produit depotId with
  | some depotStock =>
    if produit.quantiteEnStock + quantite < 0 ∨ depotStock.quantite + quantite < 0 then
      .error .stockNegatif
    else
      saveProduit { produit with
        quantiteEnStock := produit.quantiteEnStock + quantite,
        stockParDepot := majDepot produit.stockParDepot depotId quantite }
  | none =>
    if produit.quantiteEnStock + quantite < 0 then .error .stockNegatif
    else
      saveProduit { produit with
        quantiteEnStock := produit.quantiteEnStock + quantite,
        stockParDepot := produit.stockParDepot ++ [⟨depotId, quantite⟩] }

/-- The stock invariant the spec states: the product total equals the sum of
the per-warehouse quantities, and every quantity is non-negative. -/
def produitCoherent (p : Produit) : Prop :=
  p.quantiteEnStock = (p.stockParDepot.map (fun d => d.quantite)).sum ∧
  0 ≤ p.quantiteEnStock ∧
  ∀ d ∈ p.stockParDepot, 0 ≤ d.quantite

instance (p : Produit) : Decidable (produitCoherent p) := by
  unfold produitCoherent
  infer_instance

/-- One successful stock mutation, through either code path that applies a
stock delta: `StockService._creerMouvement` or the `MouvementStock`
pre-save hook calling `Produit.mettreAJourStock`. -/
def mouvementReussi (p p2 : Produit) : Prop :=
  (∃ depotId quantite m, creerMouvement p depotId quantite = Except.ok (some (p2, m))) ∨
  (∃ depotId quantite, mettreAJourStock p depotId quantite = Except.ok p2)

/-! ## Ledger entries (EcritureComptable and its pre-save balance hook) -/

/-- One `mouvementComptableSchema` line: an account and one of debit or
credit. -/
structure MouvementComptable where
  compte : ℕ
  debit : ℚ
  credit : ℚ
deriving DecidableEq

/-- An `EcritureComptable` document as constructed (`new EcritureComptable(data)`)
and handed to `save`: the totals are whatever `data` carried — the callers in
`ComptabiliteService` never set them, so there they are undefined. -/
structure EcritureDoc where
  numeroPiece : ℕ
  journal : ℕ
  mouvements : List MouvementComptable
  totalDebit : Option ℚ
  totalCredit : Option ℚ
deriving DecidableEq

/-- A persisted `EcritureComptable`, its totals filled by the pre-save hook. -/
structure EcritureComptable where
  numeroPiece : ℕ
  journal : ℕ
  mouvements : List MouvementComptable
  totalDebit : ℚ
  totalCredit : ℚ
deriving DecidableEq

/-- Errors a save of an `EcritureComptable` can raise: the Mongoose
ValidationError, the unbalanced-entry error carrying both rounded totals,
and the zero-total error. -/
inductive EcritureErreur
  | documentInvalide
  | nonEquilibree (totalDebit totalCredit : ℚ)
  | totalZero
deriving DecidableEq

/-- What Mongoose validation actually enforces on `ecritureComptableSchema`:
the `mouvements` path validator (array of length at least 2) and
`required: true` on `totalDebit` and `totalCredit`. The per-line
one-side-only validator is attached in the source as a key of the Schema
OPTIONS object (second constructor argument), which Mongoose ignores, so it
is not enforced. -/
def ecritureDocValide (d : EcritureDoc) : Prop :=
  2 ≤ d.mouvements.length ∧ d.totalDebit.isSome = true ∧ d.totalCredit.isSome = true

instance (d : EcritureDoc) : Decidable (ecritureDocValide d) := by
  unfold ecritureDocValide
  infer_instance

/-- Sum of the debit column before rounding. -/
def totalDebitBrut (ms : List MouvementComptable) : ℚ := (ms.map (fun m => m.debit)).sum

/-- Sum of the credit column before rounding. -/
def totalCreditBrut (ms : List MouvementComptable) : ℚ := (ms.map (fun m => m.credit)).sum

/-- Saving an `EcritureComptable`: Mongoose runs document validation BEFORE
any user `pre('save')` hook (validation is the built-in first pre-save
step), so the `required` check on `totalDebit`/`totalCredit` sees the
document as constructed; only if validation passes does the balance hook
run (sum each side, round to 2 decimals, reject a mismatch reporting both
totals, reject a zero total, store the totals) and the document persist. -/
def saveEcriture (d : EcritureDoc) : Except EcritureErreur EcritureComptable :=
  if ecritureDocValide d then
    let totalDebit := roundFinancial (totalDebitBrut d.mouvements)
    let totalCredit := roundFinancial (totalCreditBrut d.mouvements)
    if totalDebit ≠ totalCredit then .error (.nonEquilibree totalDebit totalCredit)
    else if totalDebit = 0 then .error .totalZero
    else .ok ⟨d.numeroPiece, d.journal, d.mouvements, totalDebit, totalCredit⟩
  else .error .documentInvalide

/-- Embeds `ComptabiliteService._creerEcriture`: builds the document from
the service `data` — which carries `numeroPiece`, `journal` and
`mouvements` but NO `totalDebit`/`totalCredit` — and saves it inside a
transaction that aborts on error, so `Except.error` persists nothing. -/
def creerEcriture (numeroPiece journal : ℕ) (mouvements : List MouvementComptable) :
    Except EcritureErreur EcritureComptable :=
  saveEcriture ⟨numeroPiece, journal, mouvements, none, none⟩

/-! ## Posting a sales invoice (ComptabiliteService.comptabiliserFactureVente) -/

/-- The accounting-relevant paths the `Parametres` singleton actually
defines (`parametresSchema`): the three default journals. It defines NO
default-account paths. -/
structure Parametres where
  journalVentesParDefaut : Option ℕ
  journalAchatsParDefaut : Option ℕ
  journalTresorerieParDefaut : Option ℕ
deriving DecidableEq

/-- Reading `params.compteClientsDefaut`: `parametresSchema` defines no such
path (the service comments say it is still to be added), so the read yields
undefined on every persisted singleton. -/
def compteClientsDefaut (_params : Parametres) : Option ℕ := none

/-- Reading `params.compteVentesDefaut`: not a path of `parametresSchema`,
always undefined. -/
def compteVentesDefaut (_params : Parametres) : Option ℕ := none

/-- Reading `params.compteTVAVenteDefaut`: not a path of `parametresSchema`,
always undefined. -/
def compteTVAVenteDefaut (_params : Parametres) : Option ℕ := none

/-- The client fields the posting logic reads. -/
structure Client where
  compteComptableAssocie : Option ℕ
deriving DecidableEq

/-- The invoice fields the posting logic reads and writes. -/
structure Facture where
  numero : ℕ
  totalHT : ℚ
  totalTVA : ℚ
  totalTTC : ℚ
  comptabilise : Bool
  client : Client
deriving DecidableEq

/-- Errors `comptabiliserFactureVente` can raise. -/
inductive ComptaErreur
  | dejaComptabilisee
  | journalManquant
  | comptesManquants
  | ecritureInvalide (e : EcritureErreur)
deriving DecidableEq

/-- Embeds `ComptabiliteService.comptabiliserFactureVente`: reject an
already-posted invoice, resolve the journal and the three accounts (client
account falling back to the configured default, JavaScript `||`, where the
three `Parametres` account reads are undefined because the schema lacks
those paths), build the three-line entry (debit TTC on the client account,
credit HT on sales, credit TVA on collected tax), save it, then mark the
invoice posted. The ledger is the list of persisted entries; a successful
call would append to it. -/
def comptabiliserFactureVente (params : Parametres) (facture : Facture)
    (grandLivre : List EcritureComptable) :
    Except ComptaErreur (Facture × List EcritureComptable) :=
  if facture.comptabilise then .error .dejaComptabilisee
  else
    match params.journalVentesParDefaut with
    | none => .error .journalManquant
    | some journal =>
      match (match facture.client.compteComptableAssocie with
             | some c => some c
             | none => compteClientsDefaut params),
            compteVentesDefaut params, compteTVAVenteDefaut params with
      | some cClient, some cVente, some cTVA =>
        match creerEcriture facture.numero journal
            [⟨cClient, facture.totalTTC, 0⟩,
             ⟨cVente, 0, facture.totalHT⟩,
             ⟨cTVA, 0, facture.totalTVA⟩] with
        | .error e => .error (.ecritureInvalide e)
        | .ok ecriture =>
          .ok ({ facture with comptabilise := true }, grandLivre ++ [ecriture])
      | _, _, _ => .error .comptesManquants

/-! ## Payment post-save recompute (models/Paiement.js) -/

/-- Status enum of a `Paiement`. -/
inductive StatutPaiement
  | enAttente
  | valide
  | annule
  | echoue
deriving DecidableEq

/-- The fields of a `Paiement` the post-save hook reads. -/
structure Paiement where
  montant : ℚ
  documentId : ℕ
  statut : StatutPaiement
deriving DecidableEq

/-- A payable document (Facture or Achat) as the hook updates it. -/
structure DocumentPayable where
  idDoc : ℕ
  montantPaye : ℚ
deriving DecidableEq

/-- The recompute inside `updateDocumentSolde`: total of all validated
payments referencing the document. -/
def totalPaiementsValides (paiements : List Paiement) (documentId : ℕ) : ℚ :=
  ((paiements.filter
      (fun q => decide (q.documentId = documentId ∧ q.statut = StatutPaiement.valide))).map
    (fun q => q.montant)).sum

/-- Embeds `updateDocumentSolde` from `models/Paiement.js`: a no-op unless
the payment is validated, else a full recompute of the linked document
montantPaye from every validated payment referencing it. -/
def updateDocumentSolde (paiements : List Paiement) (documents : List DocumentPayable)
    (p : Paiement) : List DocumentPayable :=
  if p.statut ≠ StatutPaiement.valide then documents
  else
    let totalPaye := totalPaiementsValides paiements p.documentId
    documents.map
      (fun d => if d.idDoc = p.documentId then { d with montantPaye := totalPaye } else d)

/-- Saving a payment followed by the `post('save')` hook: the payment is in
the collection before `updateDocumentSolde` queries it. -/
def savePaiement (paiements : List Paiement) (documents : List DocumentPayable)
    (p : Paiement) : List Paiement × List DocumentPayable :=
  let paiementsApres := paiements ++ [p]
  (paiementsApres, updateDocumentSolde paiementsApres documents p)

/-! ## Claim theorems -/

/-- C5: `calculerNouveauCump` returns 0 when the prior quantity plus the
inbound quantity is 0, and otherwise the 2-decimal rounding of
(prior total cost + inbound quantity * inbound unit cost) divided by the
new total quantity; prior quantity 10 at total cost 1000 with an inbound of
5 units at unit cost 120 yields 106.67. -/
theorem calculerNouveauCump_spec :
    (∀ stockInitialQuantite stockInitialCoutTotal entreeQuantite entreeCoutUnitaire : ℚ,
      calculerNouveauCump stockInitialQuantite stockInitialCoutTotal
          entreeQuantite entreeCoutUnitaire =
        if stockInitialQuantite + entreeQuantite = 0 then 0
        else roundFinancial
          ((stockInitialCoutTotal + entreeQuantite * entreeCoutUnitaire) /
            (stockInitialQuantite + entreeQuantite))) ∧
    calculerNouveauCump 10 1000 5 120 = 10667 / 100 := by
  constructor
  · intro q c iq ic
    rfl
  · norm_num [calculerNouveauCump, roundFinancial, jsMathRound]

/-- C9 (counterexample): the code rounding is not round-half-away-from-zero;
at -0.005 the code returns 0 while the claimed rounding returns -0.01. -/
theorem roundFinancial_demi_negatif_contre_exemple :
    roundFinancial (-1/200) = 0 ∧ roundHalfAwayFromZero (-1/200) = -1/100 ∧
    roundFinancial (-1/200) ≠ roundHalfAwayFromZero (-1/200) := by
  refine ⟨?_, ?_, ?_⟩ <;>
    norm_num [roundFinancial, jsMathRound, roundHalfAwayFromZero]

/-- C9 (amended): the 2-decimal rounding used by the financial calculations
and the ledger balance check rounds half toward positive infinity
(JavaScript `Math.round`): `round2 x = ⌊x * 100 + 1/2⌋ / 100`. It agrees
with round-half-away-from-zero on non-negative inputs, so
`round2 0.005 = 0.01`, but `round2 (-0.005) = 0`, not -0.01. -/
theorem roundFinancial_arrondi_demi_vers_plus_infini :
    (∀ x : ℚ, roundFinancial x = ((⌊x * 100 + 1/2⌋ : ℤ) : ℚ) / 100) ∧
    (∀ x : ℚ, 0 ≤ x → roundFinancial x = roundHalfAwayFromZero x) ∧
    roundFinancial (1/200) = 1/100 ∧
    roundFinancial (-1/200) = 0 := by
  refine ⟨fun x => rfl, fun x hx => ?_, ?_, ?_⟩
  · rw [roundHalfAwayFromZero, if_pos hx]
    rfl
  · norm_num [roundFinancial, jsMathRound]
  · norm_num [roundFinancial, jsMathRound]

/-- C4 (counterexample): for a negative payment amount the loop never runs
and the leftover is clamped to 0, so the applied amounts plus the leftover
do not add up to the rounded payment: at amount -1 with no invoices the sum
is 0 while round2(-1) = -1. -/
theorem repartirPaiement_negatif_contre_exemple :
    (((repartirPaiementSurFactures (-1) []).1.map
        (fun a => a.montantApplique)).sum +
      (repartirPaiementSurFactures (-1) []).2) ≠ roundFinancial (-1) := by
  norm_num [repartirPaiementSurFactures, repartirAux, roundFinancial, jsMathRound]

theorem sum_majDepot (l : List DepotStock) (depotId : ℕ) (q : ℚ) (ds : DepotStock)
    (h : l.find? (fun d => d.depot == depotId) = some ds) :
    ((majDepot l depotId q).map (fun d => d.quantite)).sum =
      (l.map (fun d => d.quantite)).sum + q := by
  induction l with
  | nil => simp at h
  | cons a t ih =>
    by_cases ha : a.depot = depotId
    · simp only [majDepot, if_pos ha, List.map_cons, List.sum_cons]
      ring
    · have hb : (a.depot == depotId) = false := by simpa using ha
      have h2 : t.find? (fun d => d.depot == depotId) = some ds := by
        simpa [List.find?_cons, hb] using h
      simp only [majDepot, if_neg ha, List.map_cons, List.sum_cons, ih h2]
      ring

theorem saveProduit_ok {p p2 : Produit} (h : saveProduit p = Except.ok p2) :
    p2 = p ∧ 0 ≤ p.quantiteEnStock ∧ ∀ d ∈ p.stockParDepot, 0 ≤ d.quantite := by
  unfold saveProduit at h
  split_ifs at h with hv
  exact ⟨(Except.ok.inj h).symm, hv.1, hv.2⟩

theorem mettreAJourStock_preserve {p p2 : Produit} {depotId : ℕ} {q : ℚ}
    (hsum : p.quantiteEnStock = (p.stockParDepot.map (fun d => d.quantite)).sum)
    (h : mettreAJourStock p depotId q = Except.ok p2) :
    produitCoherent p2 := by
  unfold mettreAJourStock at h
  split at h
  next ds heq =>
    split_ifs at h with hneg
    obtain ⟨hp2, hts, hall⟩ := saveProduit_ok h
    rw [hp2]
    refine ⟨?_, hts, hall⟩
    show p.quantiteEnStock + q =
      ((majDepot p.stockParDepot depotId q).map (fun d => d.quantite)).sum
    rw [sum_majDepot p.stockParDepot depotId q ds (by simpa [trouverDepot] using heq), hsum]
  next heq =>
    split_ifs at h with hneg
    obtain ⟨hp2, hts, hall⟩ := saveProduit_ok h
    rw [hp2]
    refine ⟨?_, hts, hall⟩
    show p.quantiteEnStock + q =
      ((p.stockParDepot ++ [(⟨depotId, q⟩ : DepotStock)]).map (fun d => d.quantite)).sum
    simp [hsum]

theorem creerMouvement_preserve {p p2 : Produit} {m : MouvementStock}
    {depotId : ℕ} {q : ℚ}
    (hsum : p.quantiteEnStock = (p.stockParDepot.map (fun d => d.quantite)).sum)
    (h : creerMouvement p depotId q = Except.ok (some (p2, m))) :
    produitCoherent p2 := by
  unfold creerMouvement at h
  by_cases hq : q = 0
  · rw [if_pos hq] at h
    exact absurd h (by simp)
  rw [if_neg hq] at h
  by_cases hg : p.gestionStock = false
  · rw [if_pos hg] at h
    exact absurd h (by simp)
  rw [if_neg hg] at h
  split at h
  next ds heq =>
    split_ifs at h with hneg
    split at h
    next => exact absurd h (by simp)
    next produitSauve heq2 =>
      obtain ⟨hps, hts, hall⟩ := saveProduit_ok heq2
      have hp2 : p2 = produitSauve :=
        (congrArg Prod.fst (Option.some.inj (Except.ok.inj h))).symm
      rw [hp2, hps]
      refine ⟨?_, hts, hall⟩
      show p.quantiteEnStock + q =
        ((majDepot p.stockParDepot depotId q).map (fun d => d.quantite)).sum
      rw [sum_majDepot p.stockParDepot depotId q ds (by simpa [trouverDepot] using heq), hsum]
  next heq =>
    split_ifs at h with hq0 hneg
    split at h
    next => exact absurd h (by simp)
    next produitSauve heq2 =>
      obtain ⟨hps, hts, hall⟩ := saveProduit_ok heq2
      have hp2 : p2 = produitSauve :=
        (congrArg Prod.fst (Option.some.inj (Except.ok.inj h))).symm
      rw [hp2, hps]
      refine ⟨?_, hts, hall⟩
      show p.quantiteEnStock + q =
        ((p.stockParDepot ++ [(⟨depotId, q⟩ : DepotStock)]).map (fun d => d.quantite)).sum
      simp [hsum]

/-- C3: every stock-mutating operation (`StockService._creerMouvement` and
the `MouvementStock` pre-save hook calling `Produit.mettreAJourStock`)
preserves the invariant: starting from a product whose total equals the sum
of its per-warehouse quantities with everything non-negative, every state
reachable by any sequence of successful movements satisfies the same
invariant. The explicit guards plus the schema `min: 0` validation at
`produit.save()` keep every quantity non-negative, and both paths change
the total and exactly one per-warehouse entry by the same delta. -/
theorem stock_invariant_toujours_preserve (p p2 : Produit)
    (hp : produitCoherent p)
    (h : Relation.ReflTransGen mouvementReussi p p2) :
    produitCoherent p2 := by
  induction h with
  | refl => exact hp
  | tail _ hbc ih =>
    rcases hbc with ⟨d, q, m, hc⟩ | ⟨d, q, hc⟩
    · exact creerMouvement_preserve ih.1 hc
    · exact mettreAJourStock_preserve ih.1 hc

/-- C3 (witness): a coherent product holding 10 units in warehouse 1, after
one successful outbound of 5 through the pre-save hook path, is still
coherent. -/
theorem stock_invariant_toujours_preserve_witness :
    produitCoherent ⟨10, [⟨1, 10⟩], true, 100⟩ ∧
    Relation.ReflTransGen mouvementReussi ⟨10, [⟨1, 10⟩], true, 100⟩
      ⟨5, [⟨1, 5⟩], true, 100⟩ ∧
    produitCoherent ⟨5, [⟨1, 5⟩], true, 100⟩ := by
  have hp : produitCoherent ⟨10, [⟨1, 10⟩], true, 100⟩ := by norm_num [produitCoherent]
  have hstep : mouvementReussi ⟨10, [⟨1, 10⟩], true, 100⟩ ⟨5, [⟨1, 5⟩], true, 100⟩ :=
    Or.inr ⟨1, -5, by norm_num [mettreAJourStock, trouverDepot, saveProduit, majDepot]⟩
  exact ⟨hp, Relation.ReflTransGen.single hstep,
    stock_invariant_toujours_preserve _ _ hp (Relation.ReflTransGen.single hstep)⟩

/-- C8: an outbound movement against a warehouse with no per-warehouse
record is rejected on every code path that applies a stock delta, and by
the `Except` semantics of the aborted save nothing — in particular no
negative record — is persisted: `StockService._creerMouvement` rejects it
with the no-stock-at-location error, and on the `Produit.mettreAJourStock`
path either the explicit total check or the schema `min: 0` validation of
the pushed negative record makes `produit.save()` throw. -/
theorem sortie_sans_stock_rejetee (p : Produit) (depotId : ℕ) (q : ℚ)
    (habs : trouverDepot p depotId = none) (hq : q < 0) :
    (p.gestionStock = true →
      creerMouvement p depotId q = Except.error StockErreur.nonPresentDansDepot) ∧
    (∃ e, mettreAJourStock p depotId q = Except.error e) := by
  constructor
  · intro hg
    rw [creerMouvement, if_neg (by linarith : ¬ q = 0), hg]
    simp only [Bool.true_eq_false, if_false, habs]
    rw [if_neg (by linarith : ¬ 0 < q)]
  · by_cases ht : p.quantiteEnStock + q < 0
    · refine ⟨.stockNegatif, ?_⟩
      rw [mettreAJourStock]
      simp only [habs]
      rw [if_pos ht]
    · refine ⟨.quantiteNegativeInterdite, ?_⟩
      rw [mettreAJourStock]
      simp only [habs]
      rw [if_neg ht, saveProduit, if_neg]
      intro hval
      have h2 := hval.2 ⟨depotId, q⟩ (List.mem_append_right _ (by simp))
      simp only at h2
      linarith

/-- C8 (witness): product holding 10 units in warehouse 1; an outbound of 7
against warehouse 3 (no record) is rejected on both paths — with the
no-stock-at-location error on the service path. -/
theorem sortie_sans_stock_rejetee_witness :
    trouverDepot ⟨10, [⟨1, 10⟩], true, 100⟩ 3 = none ∧ ((-7 : ℚ) < 0) ∧
    creerMouvement ⟨10, [⟨1, 10⟩], true, 100⟩ 3 (-7) =
      Except.error StockErreur.nonPresentDansDepot ∧
    (∃ e, mettreAJourStock ⟨10, [⟨1, 10⟩], true, 100⟩ 3 (-7) = Except.error e) := by
  have habs : trouverDepot ⟨10, [⟨1, 10⟩], true, 100⟩ 3 = none := by
    norm_num [trouverDepot]
  have hmain := sortie_sans_stock_rejetee ⟨10, [⟨1, 10⟩], true, 100⟩ 3 (-7)
    habs (by norm_num)
  exact ⟨habs, by norm_num, hmain.1 rfl, hmain.2⟩

/-- C2: a movement through `StockService._creerMouvement` whose signed
quantity would drive the product total or the target warehouse quantity
negative fails, and by the transaction semantics of the embedding an error
persists nothing: no movement record, no product change. -/
theorem creerMouvement_refuse_stock_insuffisant (p : Produit) (depotId : ℕ) (q : ℚ)
    (hg : p.gestionStock = true)
    (hneg : p.quantiteEnStock + q < 0 ∨ quantiteDepot p depotId + q < 0) :
    ∃ e, creerMouvement p depotId q = Except.error e := by
  by_cases hq : q = 0
  · exact ⟨.donneesManquantes, by rw [creerMouvement, if_pos hq]⟩
  cases htd : trouverDepot p depotId with
  | some ds =>
    refine ⟨.stockInsuffisant, ?_⟩
    have hd : quantiteDepot p depotId = ds.quantite := by rw [quantiteDepot, htd]
    rw [hd] at hneg
    rw [creerMouvement, if_neg hq, hg]
    simp only [Bool.true_eq_false, if_false, htd]
    rw [if_pos hneg]
  | none =>
    have hd : quantiteDepot p depotId = 0 := by rw [quantiteDepot, htd]
    rw [hd] at hneg
    by_cases hq0 : 0 < q
    · have htotal : p.quantiteEnStock + q < 0 := by
        rcases hneg with h | h
        · exact h
        · linarith
      refine ⟨.stockInsuffisant, ?_⟩
      rw [creerMouvement, if_neg hq, hg]
      simp only [Bool.true_eq_false, if_false, htd]
      rw [if_pos hq0, if_pos htotal]
    · refine ⟨.nonPresentDansDepot, ?_⟩
      rw [creerMouvement, if_neg hq, hg]
      simp only [Bool.true_eq_false, if_false, htd]
      rw [if_neg hq0]

/-- C2 (witness): an outbound of 20 units against a warehouse holding 10
(product total also 10) fails, with the insufficient-stock error. -/
theorem creerMouvement_refuse_stock_insuffisant_witness :
    (Produit.mk 10 [⟨1, 10⟩] true 100).gestionStock = true ∧
    ((Produit.mk 10 [⟨1, 10⟩] true 100).quantiteEnStock + (-20) < 0 ∨
      quantiteDepot (Produit.mk 10 [⟨1, 10⟩] true 100) 1 + (-20) < 0) ∧
    (∃ e, creerMouvement (Produit.mk 10 [⟨1, 10⟩] true 100) 1 (-20) = Except.error e) ∧
    creerMouvement (Produit.mk 10 [⟨1, 10⟩] true 100) 1 (-20) =
      Except.error StockErreur.stockInsuffisant := by
  refine ⟨rfl, ?_, ?_, ?_⟩
  · norm_num [quantiteDepot, trouverDepot]
  · exact creerMouvement_refuse_stock_insuffisant (Produit.mk 10 [⟨1, 10⟩] true 100) 1 (-20)
      rfl (by norm_num [quantiteDepot, trouverDepot])
  · norm_num [creerMouvement, trouverDepot]

/-- C10: after saving a payment, when its status is validated the linked
document montantPaye equals the total of ALL validated payments referencing
that document (a full recompute over the collection, including the payment
just saved, regardless of the previous montantPaye); a payment with any
other status leaves the documents untouched. -/
theorem savePaiement_recalcule_montantPaye (paiements : List Paiement)
    (documents : List DocumentPayable) (p : Paiement) :
    (p.statut = StatutPaiement.valide →
      ∀ d ∈ (savePaiement paiements documents p).2, d.idDoc = p.documentId →
        d.montantPaye = totalPaiementsValides (paiements ++ [p]) p.documentId) ∧
    (p.statut ≠ StatutPaiement.valide →
      (savePaiement paiements documents p).2 = documents) := by
  constructor
  · intro hv d hd hid
    have hmem : d ∈ documents.map
        (fun d => if d.idDoc = p.documentId then
          { d with montantPaye := totalPaiementsValides (paiements ++ [p]) p.documentId }
          else d) := by
      simpa [savePaiement, updateDocumentSolde, hv] using hd
    obtain ⟨d0, _, rfl⟩ := List.mem_map.mp hmem
    split_ifs at hid ⊢ with h0
    · rfl
    · exact absurd hid h0
  · intro hnv
    simp [savePaiement, updateDocumentSolde, hnv]

/-- C1 (code evaluation at the failing input): the balance check never
decides a save. `totalDebit` and `totalCredit` are `required: true` but are
only computed inside the user pre-save hook, and Mongoose validation runs
BEFORE user pre-save hooks; `_creerEcriture` is always called with service
data that carries no totals, so every such save — balanced or not — fails
validation, persists nothing, and never reports the balance totals. -/
theorem creerEcriture_echoue_avant_hook :
    creerEcriture 1 1 [⟨411, 118, 0⟩, ⟨701, 0, 118⟩] =
      Except.error EcritureErreur.documentInvalide ∧
    creerEcriture 1 1 [⟨411, 118, 0⟩, ⟨701, 0, 99⟩] =
      Except.error EcritureErreur.documentInvalide ∧
    (∀ (numeroPiece journal : ℕ) (mouvements : List MouvementComptable)
        (e : EcritureComptable),
      creerEcriture numeroPiece journal mouvements ≠ Except.ok e) := by
  refine ⟨?_, ?_, ?_⟩
  · simp [creerEcriture, saveEcriture, ecritureDocValide]
  · simp [creerEcriture, saveEcriture, ecritureDocValide]
  · intro numeroPiece journal mouvements e h
    simp [creerEcriture, saveEcriture, ecritureDocValide] at h

theorem etapeTotaux_eq (acc : ℚ × ℚ × ℚ) (l : Ligne) :
    etapeTotaux acc l = (acc.1 + ligneHT l, acc.2.1 + ligneRemise l, acc.2.2 + ligneTVA l) := rfl

theorem foldl_etapeTotaux (lignes : List Ligne) :
    ∀ acc : ℚ × ℚ × ℚ,
      lignes.foldl etapeTotaux acc =
        (acc.1 + (lignes.map ligneHT).sum,
         acc.2.1 + (lignes.map ligneRemise).sum,
         acc.2.2 + (lignes.map ligneTVA).sum) := by
  induction lignes with
  | nil => intro acc; simp
  | cons l t ih =>
    intro acc
    rw [List.foldl_cons, etapeTotaux_eq, ih]
    simp only [List.map_cons, List.sum_cons, Prod.mk.injEq]
    refine ⟨by ring, by ring, by ring⟩

theorem isCent_ligneHT (l : Ligne) : IsCent (ligneHT l) := isCent_roundFinancial _

theorem isCent_ligneRemise (l : Ligne) : IsCent (ligneRemise l) := isCent_roundFinancial _

theorem isCent_ligneTVA (l : Ligne) : IsCent (ligneTVA l) := isCent_roundFinancial _

/-- C6: `calculerTotauxDocument` returns as totalHT, totalRemise and
totalTVA the sums over the lines of the rounded per-line amount before tax,
discount amount (percentage of the line amount, or the rounded flat value)
and tax amount on the discounted base, with
totalTTC = totalHT - totalRemise + totalTVA; one line of quantity 3 at unit
price 1000 with a 10 percent discount and 18 percent tax yields totals
3000, 300, 486 and 3186. -/
theorem calculerTotauxDocument_spec :
    (∀ lignes : List Ligne,
      calculerTotauxDocument lignes =
        { totalHT := (lignes.map ligneHT).sum
          totalRemise := (lignes.map ligneRemise).sum
          totalTVA := (lignes.map ligneTVA).sum
          totalTTC := (lignes.map ligneHT).sum - (lignes.map ligneRemise).sum +
            (lignes.map ligneTVA).sum }) ∧
    calculerTotauxDocument [⟨3, 1000, some ⟨RemiseType.pourcentage, 10⟩, 18⟩] =
      ⟨3000, 300, 486, 3186⟩ := by
  constructor
  · intro lignes
    have hHT : IsCent (lignes.map ligneHT).sum := isCent_sum (by
      intro x hx
      obtain ⟨l, _, rfl⟩ := List.mem_map.mp hx
      exact isCent_ligneHT l)
    have hRem : IsCent (lignes.map ligneRemise).sum := isCent_sum (by
      intro x hx
      obtain ⟨l, _, rfl⟩ := List.mem_map.mp hx
      exact isCent_ligneRemise l)
    have hTVA : IsCent (lignes.map ligneTVA).sum := isCent_sum (by
      intro x hx
      obtain ⟨l, _, rfl⟩ := List.mem_map.mp hx
      exact isCent_ligneTVA l)
    rw [calculerTotauxDocument, foldl_etapeTotaux]
    simp only [zero_add]
    congr 1
    · exact roundFinancial_eq_self hHT
    · exact roundFinancial_eq_self hRem
    · exact roundFinancial_eq_self hTVA
    · exact roundFinancial_eq_self (isCent_add (isCent_sub hHT hRem) hTVA)
  · norm_num [calculerTotauxDocument, etapeTotaux, calculateDiscountAmount,
      calculateTaxAmount, remiseValeur, remiseType, roundFinancial, jsMathRound]

theorem repartirAux_conservation (factures : List FactureOuverte) :
    ∀ reste : ℚ, IsCent reste → 0 ≤ reste →
      (((repartirAux reste factures).1.map (fun a => a.montantApplique)).sum +
          (repartirAux reste factures).2 = reste) ∧
      0 ≤ (repartirAux reste factures).2 := by
  induction factures with
  | nil =>
    intro r hc hr
    simp only [repartirAux, List.map_nil, List.sum_nil, zero_add]
    exact ⟨trivial, hr⟩
  | cons f t ih =>
    intro r hc hr
    by_cases hr0 : r ≤ 0
    · simp only [repartirAux, if_pos hr0, List.map_nil, List.sum_nil, zero_add]
      exact ⟨trivial, hr⟩
    · by_cases hs : 0 < calculerSoldeRestant f.totalTTC f.montantPaye
      · have hcs : IsCent (calculerSoldeRestant f.totalTTC f.montantPaye) :=
          isCent_roundFinancial _
        have hmin : IsCent (min r (calculerSoldeRestant f.totalTTC f.montantPaye)) :=
          isCent_min hc hcs
        have happ : roundFinancial (min r (calculerSoldeRestant f.totalTTC f.montantPaye)) =
            min r (calculerSoldeRestant f.totalTTC f.montantPaye) :=
          roundFinancial_eq_self hmin
        have hrest : roundFinancial
            (r - roundFinancial (min r (calculerSoldeRestant f.totalTTC f.montantPaye))) =
            r - min r (calculerSoldeRestant f.totalTTC f.montantPaye) := by
          rw [happ]
          exact roundFinancial_eq_self (isCent_sub hc hmin)
        have hge : 0 ≤ r - min r (calculerSoldeRestant f.totalTTC f.montantPaye) := by
          have hle := min_le_left r (calculerSoldeRestant f.totalTTC f.montantPaye)
          linarith
        obtain ⟨ih1, ih2⟩ := ih
          (roundFinancial (r - roundFinancial (min r (calculerSoldeRestant f.totalTTC f.montantPaye))))
          (by rw [hrest]; exact isCent_sub hc hmin)
          (by rw [hrest]; exact hge)
        constructor
        · simp only [repartirAux, if_neg hr0, if_pos hs, List.map_cons, List.sum_cons]
          rw [add_assoc, ih1, hrest, happ]
          ring
        · simp only [repartirAux, if_neg hr0, if_pos hs]
          exact ih2
      · simp only [repartirAux, if_neg hr0, if_neg hs]
        exact ih r hc hr

/-- C4 (amended): for every NON-NEGATIVE payment amount m and every ordered
list of documents, the allocator scans the documents in order, skips the
settled ones, applies min(remaining, balance), and the sum of applied
amounts plus the reported leftover equals round2(m); 150 against balances
[100, 100] yields allocations [100, 50] with leftover 0, and 250 yields
[100, 100] with leftover 50. (For a negative amount the loop never runs and
the leftover is clamped to 0, so the as-stated equality fails there.) -/
theorem repartirPaiementSurFactures_conservation :
    (∀ (montantPaiement : ℚ) (factures : List FactureOuverte),
      0 ≤ montantPaiement →
      (((repartirPaiementSurFactures montantPaiement factures).1.map
          (fun a => a.montantApplique)).sum +
        (repartirPaiementSurFactures montantPaiement factures).2) =
        roundFinancial montantPaiement) ∧
    repartirPaiementSurFactures 150 [⟨1, 1, 100, 0⟩, ⟨2, 2, 100, 0⟩] =
      ([⟨1, 1, 100⟩, ⟨2, 2, 50⟩], 0) ∧
    repartirPaiementSurFactures 250 [⟨1, 1, 100, 0⟩, ⟨2, 2, 100, 0⟩] =
      ([⟨1, 1, 100⟩, ⟨2, 2, 100⟩], 50) := by
  refine ⟨?_, ?_, ?_⟩
  · intro m factures hm
    obtain ⟨h1, h2⟩ := repartirAux_conservation factures (roundFinancial m)
      (isCent_roundFinancial m) (roundFinancial_nonneg hm)
    by_cases hpos : 0 < (repartirAux (roundFinancial m) factures).2
    · simp only [repartirPaiementSurFactures, if_pos hpos]
      exact h1
    · have hz : (repartirAux (roundFinancial m) factures).2 = 0 := le_antisymm (by linarith) h2
      simp only [repartirPaiementSurFactures, if_neg hpos]
      linarith [h1, hz]
  · norm_num [repartirPaiementSurFactures, repartirAux, calculerSoldeRestant,
      roundFinancial, jsMathRound]
  · norm_num [repartirPaiementSurFactures, repartirAux, calculerSoldeRestant,
      roundFinancial, jsMathRound]

/-- C7 (code evaluation): the already-posted guard is unreachable through
`comptabiliserFactureVente`, because the function can never succeed:
`parametresSchema` defines no `compteClientsDefaut`, `compteVentesDefaut`
or `compteTVAVenteDefaut` paths, so the missing-accounts error always
fires (and the entry save would fail the required-totals validation
anyway). No first call ever flags an invoice, so no second call can be
rejected as already posted. -/
theorem comptabiliserFactureVente_jamais_reussie :
    (∀ (params : Parametres) (facture : Facture)
        (grandLivre : List EcritureComptable) (r : Facture × List EcritureComptable),
      comptabiliserFactureVente params facture grandLivre ≠ Except.ok r) ∧
    comptabiliserFactureVente ⟨some 1, some 2, some 3⟩
        ⟨7, 100, 18, 118, false, ⟨some 411⟩⟩ [] =
      Except.error ComptaErreur.comptesManquants := by
  constructor
  · intro params facture grandLivre r h
    unfold comptabiliserFactureVente at h
    by_cases hf : facture.comptabilise = true
    · rw [if_pos hf] at h
      exact absurd h (by simp)
    · rw [if_neg hf] at h
      cases hj : params.journalVentesParDefaut with
      | none =>
        simp only [hj] at h
        exact absurd h (by simp)
      | some journal =>
        simp only [hj] at h
        cases hc : facture.client.compteComptableAssocie with
        | none =>
          simp only [hc, compteClientsDefaut, compteVentesDefaut,
            compteTVAVenteDefaut] at h
          exact absurd h (by simp)
        | some compte =>
          simp only [hc, compteVentesDefaut, compteTVAVenteDefaut] at h
          exact absurd h (by simp)
  · simp [comptabiliserFactureVente, compteClientsDefaut, compteVentesDefaut,
      compteTVAVenteDefaut]

end ERP
